import Mathlib

/-!
Verification of the XAI_Persistence chat backend
(`src/backups/persistent_chat-QwenEdited.py` as the primary variant, with the
prompt builder of `src/backups/persistent_chat - Copy.py` modelled alongside).

The Python program is shallowly embedded: JSON documents become an inductive
`Json` tree, the filesystem becomes a map from path strings to file contents,
`datetime` values become a record of calendar fields with an executable
ISO-8601 printer and parser mirroring `isoformat`/`fromisoformat`, and the
retrying HTTP client becomes a fuel-indexed loop driven by an oracle giving
the outcome of each physical network call.
-/

/-- A JSON document, as produced by Python `json.load`. -/
inductive Json where
  | null : Json
  | bool (b : Bool) : Json
  | num (n : Int) : Json
  | str (s : String) : Json
  | arr (items : List Json) : Json
  | obj (fields : List (String × Json)) : Json

/-- Dictionary lookup on a JSON object: Python `json.load` builds a `dict`,
where a later duplicate key overwrites an earlier one, so the fold keeps the
last binding.  On a non-object this returns `none` (Python raises
`TypeError`/`KeyError`, which the callers catch). -/
def Json.getField : Json → String → Option Json
  | .obj fields, k => fields.foldl (fun acc kv => if kv.1 = k then some kv.2 else acc) none
  | _, _ => none

/-- Content of one on-disk file: either bytes that parse as JSON, or bytes
that do not (Python `json.load` raises `JSONDecodeError` on the latter). -/
inductive FileData where
  | json (j : Json) : FileData
  | corrupt (bytes : String) : FileData

/-- The filesystem visible to the store: a partial map from path to content. -/
def FS : Type := String → Option FileData

/-- `open(p, "w")` followed by a complete `json.dump`/write. -/
def fsWrite (fs : FS) (p : String) (d : FileData) : FS :=
  fun q => if q = p then some d else fs q

/-- `Path.unlink`. -/
def fsDelete (fs : FS) (p : String) : FS :=
  fun q => if q = p then none else fs q

/-- `Path.rename`, with POSIX semantics: an existing destination is silently
replaced.  On a missing source the callers in the program always guard with
`exists()`, so the missing-source case is the identity here. -/
def fsRename (fs : FS) (src dst : String) : FS :=
  match fs src with
  | none => fs
  | some d => fsWrite (fsDelete fs src) dst d

/-! ## The `datetime` model

`Message.timestamp` is a Python `datetime.datetime` (naive, from
`datetime.now()`).  It is modelled by its calendar fields; `isoformat` and
`fromisoformat` are implemented concretely on the grammar
`YYYY-MM-DD<sep>HH:MM:SS[.ffffff]` that `isoformat` emits (`fromisoformat`
in the stdlib accepts any single separator character and validates field
ranges, raising `ValueError` otherwise; both behaviours are mirrored). -/

structure DateTime where
  year : Nat
  month : Nat
  day : Nat
  hour : Nat
  minute : Nat
  second : Nat
  microsecond : Nat
deriving DecidableEq

def isLeapYear (y : Nat) : Bool :=
  (y % 4 == 0) && (!(y % 100 == 0) || (y % 400 == 0))

def daysInMonth (y m : Nat) : Nat :=
  if m = 2 then (if isLeapYear y then 29 else 28)
  else if m = 4 ∨ m = 6 ∨ m = 9 ∨ m = 11 then 30
  else 31

/-- The range constraints Python `datetime` enforces on construction. -/
def DateTime.isValid (d : DateTime) : Bool :=
  decide (1 ≤ d.year ∧ d.year ≤ 9999 ∧ 1 ≤ d.month ∧ d.month ≤ 12 ∧
    1 ≤ d.day ∧ d.day ≤ daysInMonth d.year d.month ∧
    d.hour ≤ 23 ∧ d.minute ≤ 59 ∧ d.second ≤ 59 ∧ d.microsecond ≤ 999999)

def digitToChar : Nat → Char
  | 0 => '0' | 1 => '1' | 2 => '2' | 3 => '3' | 4 => '4'
  | 5 => '5' | 6 => '6' | 7 => '7' | 8 => '8' | _ => '9'

def charToDigit (c : Char) : Option Nat :=
  if c.isDigit then some (c.toNat - 48) else none

/-- Zero-padded fixed-width decimal rendering, most significant digit first
(the `%04d`-style padding `isoformat` uses). -/
def padDigits : Nat → Nat → List Char
  | 0, _ => []
  | w + 1, n => digitToChar (n / 10 ^ w) :: padDigits w (n % 10 ^ w)

/-- Fixed-width decimal parsing, inverse of `padDigits` on in-range input. -/
def parseFixed : Nat → List Char → Option (Nat × List Char)
  | 0, cs => some (0, cs)
  | _ + 1, [] => none
  | w + 1, c :: cs =>
    match charToDigit c with
    | none => none
    | some d =>
      match parseFixed w cs with
      | none => none
      | some (m, rest) => some (d * 10 ^ w + m, rest)

def fracChars (u : Nat) : List Char :=
  if u = 0 then [] else '.' :: padDigits 6 u

/-- Character stream of `datetime.isoformat()` (default separator `T`;
the `.ffffff` part is omitted when `microsecond == 0`). -/
def isoChars (d : DateTime) : List Char :=
  padDigits 4 d.year ++ '-' ::
    (padDigits 2 d.month ++ '-' ::
      (padDigits 2 d.day ++ 'T' ::
        (padDigits 2 d.hour ++ ':' ::
          (padDigits 2 d.minute ++ ':' ::
            (padDigits 2 d.second ++ fracChars d.microsecond)))))

def DateTime.isoformat (d : DateTime) : String :=
  String.mk (isoChars d)

def expectChar (c : Char) : List Char → Option (List Char)
  | [] => none
  | x :: xs => if x = c then some xs else none

/-- The separator between date and time: `fromisoformat` accepts any single
character there. -/
def anySep : List Char → Option (List Char)
  | [] => none
  | _ :: xs => some xs

/-- The optional fractional-seconds tail produced by `isoformat`. -/
def parseFrac : List Char → Option (Nat × List Char)
  | [] => some (0, [])
  | '.' :: cs => parseFixed 6 cs
  | _ => none

def finishIso (y mo da h mi se u : Nat) (rest : List Char) : Option DateTime :=
  if rest = [] then
    let d : DateTime := ⟨y, mo, da, h, mi, se, u⟩
    if d.isValid then some d else none
  else none

def fromisoChars (cs : List Char) : Option DateTime :=
  (parseFixed 4 cs).bind fun py =>
  (expectChar '-' py.2).bind fun cs1 =>
  (parseFixed 2 cs1).bind fun pmo =>
  (expectChar '-' pmo.2).bind fun cs2 =>
  (parseFixed 2 cs2).bind fun pda =>
  (anySep pda.2).bind fun cs3 =>
  (parseFixed 2 cs3).bind fun ph =>
  (expectChar ':' ph.2).bind fun cs4 =>
  (parseFixed 2 cs4).bind fun pmi =>
  (expectChar ':' pmi.2).bind fun cs5 =>
  (parseFixed 2 cs5).bind fun pse =>
  (parseFrac pse.2).bind fun pu =>
  finishIso py.1 pmo.1 pda.1 ph.1 pmi.1 pse.1 pu.1 pu.2

/-- `datetime.fromisoformat`: parses the grammar above, raising (here:
returning `none`) on anything else, including out-of-range fields. -/
def fromisoformat (s : String) : Option DateTime :=
  fromisoChars s.toList

theorem charToDigit_digitToChar {d : Nat} (h : d < 10) :
    charToDigit (digitToChar d) = some d := by
  interval_cases d <;> rfl

theorem parseFixed_padDigits (w : Nat) :
    ∀ (n : Nat) (rest : List Char), n < 10 ^ w →
      parseFixed w (padDigits w n ++ rest) = some (n, rest) := by
  induction w with
  | zero =>
    intro n rest h
    have hn : n = 0 := Nat.lt_one_iff.mp h
    subst hn
    rfl
  | succ w ih =>
    intro n rest h
    have hpos : 0 < 10 ^ w := Nat.pos_pow_of_pos w (by omega)
    have hdiv : n / 10 ^ w < 10 := by
      have : n < 10 * 10 ^ w := by
        calc n < 10 ^ (w + 1) := h
        _ = 10 * 10 ^ w := by ring
      exact Nat.div_lt_of_lt_mul (by omega)
    have hmod : n % 10 ^ w < 10 ^ w := Nat.mod_lt _ hpos
    show parseFixed (w + 1)
        (digitToChar (n / 10 ^ w) :: (padDigits w (n % 10 ^ w) ++ rest))
        = some (n, rest)
    simp only [parseFixed, charToDigit_digitToChar hdiv,
      ih (n % 10 ^ w) rest hmod]
    have hrec : n / 10 ^ w * 10 ^ w + n % 10 ^ w = n := by
      rw [Nat.mul_comm]
      exact Nat.div_add_mod n (10 ^ w)
    rw [hrec]

theorem expectChar_cons (c : Char) (cs : List Char) :
    expectChar c (c :: cs) = some cs := by
  simp [expectChar]

/-- `fromisoformat` inverts `isoformat` on every datetime the Python
library can construct. -/
theorem fromisoformat_isoformat (d : DateTime) (h : d.isValid = true) :
    fromisoformat d.isoformat = some d := by
  have hbounds : 1 ≤ d.year ∧ d.year ≤ 9999 ∧ 1 ≤ d.month ∧ d.month ≤ 12 ∧
      1 ≤ d.day ∧ d.day ≤ daysInMonth d.year d.month ∧
      d.hour ≤ 23 ∧ d.minute ≤ 59 ∧ d.second ≤ 59 ∧ d.microsecond ≤ 999999 := by
    simpa [DateTime.isValid] using h
  have hdim : daysInMonth d.year d.month ≤ 31 := by
    unfold daysInMonth
    split
    · split <;> omega
    · split <;> omega
  have hy : d.year < 10 ^ 4 := by omega
  have hmo : d.month < 10 ^ 2 := by omega
  have hda : d.day < 10 ^ 2 := by omega
  have hh : d.hour < 10 ^ 2 := by omega
  have hmi : d.minute < 10 ^ 2 := by omega
  have hse : d.second < 10 ^ 2 := by omega
  show fromisoChars (String.mk (isoChars d)).toList = some d
  have htl : (String.mk (isoChars d)).toList = isoChars d := rfl
  rw [htl]
  unfold isoChars fromisoChars
  rw [parseFixed_padDigits 4 d.year _ hy]
  simp only [Option.some_bind]
  rw [expectChar_cons]
  simp only [Option.some_bind]
  rw [parseFixed_padDigits 2 d.month _ hmo]
  simp only [Option.some_bind]
  rw [expectChar_cons]
  simp only [Option.some_bind]
  rw [parseFixed_padDigits 2 d.day _ hda]
  simp only [Option.some_bind]
  rw [show ∀ cs : List Char, anySep ('T' :: cs) = some cs from fun _ => rfl]
  simp only [Option.some_bind]
  rw [parseFixed_padDigits 2 d.hour _ hh]
  simp only [Option.some_bind]
  rw [expectChar_cons]
  simp only [Option.some_bind]
  rw [parseFixed_padDigits 2 d.minute _ hmi]
  simp only [Option.some_bind]
  rw [expectChar_cons]
  simp only [Option.some_bind]
  by_cases hu : d.microsecond = 0
  · rw [show padDigits 2 d.second ++ fracChars d.microsecond =
        padDigits 2 d.second ++ [] from by simp [fracChars, hu]]
    rw [parseFixed_padDigits 2 d.second _ hse]
    simp only [Option.some_bind]
    rw [show parseFrac [] = some (0, []) from rfl]
    simp only [Option.some_bind]
    unfold finishIso
    rw [show (⟨d.year, d.month, d.day, d.hour, d.minute, d.second, 0⟩ : DateTime)
        = d from by cases d; simp_all]
    simp [h]
  · have hu6 : d.microsecond < 10 ^ 6 := by omega
    rw [show fracChars d.microsecond = '.' :: padDigits 6 d.microsecond from by
      simp [fracChars, hu]]
    rw [parseFixed_padDigits 2 d.second _ hse]
    simp only [Option.some_bind]
    rw [show ∀ cs : List Char, parseFrac ('.' :: cs) = parseFixed 6 cs from
      fun _ => rfl]
    rw [show padDigits 6 d.microsecond = padDigits 6 d.microsecond ++ [] from
      (List.append_nil _).symm]
    rw [parseFixed_padDigits 6 d.microsecond [] hu6]
    simp only [Option.some_bind]
    unfold finishIso
    rw [show (⟨d.year, d.month, d.day, d.hour, d.minute, d.second,
        d.microsecond⟩ : DateTime) = d from by cases d; rfl]
    simp [h]

/-! ## ChatMemory and its JSON encoding

Mirrors the pydantic models `Message` and `ChatMemory` and the explicit
dict built inside `_save_memory` / read inside `_load_memory`. -/

structure Message where
  role : String
  content : String
  timestamp : DateTime
deriving DecidableEq

structure ChatMemory where
  messages : List Message
  metadata : List (String × Json)

def emptyMemory : ChatMemory := ⟨[], []⟩

/-- The dict `_save_memory` passes to `json.dump`. -/
def encodeMessage (m : Message) : Json :=
  .obj [("role", .str m.role), ("content", .str m.content),
        ("timestamp", .str m.timestamp.isoformat)]

def serializeMemory (mem : ChatMemory) : Json :=
  .obj [("messages", .arr (mem.messages.map encodeMessage)),
        ("metadata", .obj mem.metadata)]

/-- One entry of the list comprehension in `_load_memory`:
`msg["role"]`, `msg["content"]`, `datetime.fromisoformat(msg["timestamp"])`.
A missing key, a non-string value, or an unparseable timestamp raises
(`KeyError` / pydantic `ValidationError` / `ValueError`), which the caller
turns into empty memory; here that is `none`. -/
def decodeMessage (j : Json) : Option Message :=
  (j.getField "role").bind fun jr =>
  (j.getField "content").bind fun jc =>
  (j.getField "timestamp").bind fun jt =>
  match jr, jc, jt with
  | .str r, .str c, .str t => (fromisoformat t).map fun d => ⟨r, c, d⟩
  | _, _, _ => none

/-- `data["messages"]` must be a list whose every entry decodes, and
`data.get("metadata", {})` must be a dict (pydantic validates
`metadata: Dict`); otherwise the whole load raises and yields empty memory. -/
def decodeMemory (j : Json) : Option ChatMemory :=
  (j.getField "messages").bind fun jm =>
  match jm with
  | .arr items =>
    (items.mapM decodeMessage).bind fun msgs =>
    match (j.getField "metadata").getD (.obj []) with
    | .obj md => some ⟨msgs, md⟩
    | _ => none
  | _ => none

/-! ## pathlib name manipulation

`_save_memory` renames the live file to `memory_file.with_suffix(".json.bak")`
but deletes/restores `Path(str(memory_file) + ".bak")`; the two only agree
when the final suffix of the configured path is `.json`.  `Path.suffix` and
`Path.with_suffix` are modelled on bare file names exactly as CPython
computes them (last dot, not at position 0, not the final character). -/

def pathSuffix (p : String) : String :=
  let cs := p.toList
  let afterRev := cs.reverse.takeWhile (fun c => c ≠ '.')
  if afterRev.length = cs.length then ""
  else if afterRev.length = 0 then ""
  else if afterRev.length = cs.length - 1 then ""
  else String.mk ('.' :: afterRev.reverse)

def withSuffix (p : String) (suffix : String) : String :=
  let cs := p.toList
  let old := (pathSuffix p).toList
  String.mk (cs.take (cs.length - old.length)) ++ suffix

/-! ## ChatMemoryStore: `_load_memory` and `_save_memory` -/

/-- `PersistentChat._load_memory`, as a function of the filesystem and the
configured `memory_file` path.  Returns the loaded memory and the
filesystem afterwards. -/
def loadMemory (fs : FS) (p : String) : ChatMemory × FS :=
  match fs p with
  | none => (emptyMemory, fs)
  | some (.corrupt _) =>
    -- json.JSONDecodeError: quarantine the file (POSIX rename overwrites
    -- an existing destination).
    (emptyMemory, fsRename fs p (withSuffix p ".json.backup"))
  | some (.json j) =>
    match decodeMemory j with
    | some mem => (mem, fs)
    | none => (emptyMemory, fs)

/-- How the write step of `_save_memory` turns out.  `success` is a complete
write; the failure modes model an exception from `open`/`json.dump`, which
leaves the target either untouched-after-rename (never created) or holding
a partial, non-JSON prefix of the dump. -/
inductive WriteOutcome where
  | success : WriteOutcome
  | failMidWrite (partialBytes : String) : WriteOutcome
  | failNoFile : WriteOutcome

/-- `PersistentChat._save_memory`.  The pre-write snapshot goes to
`with_suffix(".json.bak")`; the cleanup on success and the rollback on
failure both address `str(memory_file) + ".bak"` instead. -/
def saveMemory (fs : FS) (p : String) (mem : ChatMemory) (w : WriteOutcome) : FS :=
  let fs1 := if (fs p).isSome then fsRename fs p (withSuffix p ".json.bak") else fs
  match w with
  | .success =>
    let fs2 := fsWrite fs1 p (.json (serializeMemory mem))
    if (fs2 (p ++ ".bak")).isSome then fsDelete fs2 (p ++ ".bak") else fs2
  | .failMidWrite s =>
    let fs2 := fsWrite fs1 p (.corrupt s)
    if (fs2 (p ++ ".bak")).isSome then fsRename fs2 (p ++ ".bak") p else fs2
  | .failNoFile =>
    if (fs1 (p ++ ".bak")).isSome then fsRename fs1 (p ++ ".bak") p else fs1

theorem data_append_json (stem : String) :
    (stem ++ ".json").toList = stem.data ++ ['.', 'j', 's', 'o', 'n'] := by
  show (stem ++ ".json").data = _
  rw [String.data_append]

theorem data_length_pos_of_ne_empty {stem : String} (hs : stem ≠ "") :
    0 < stem.data.length := by
  cases hd : stem.data with
  | nil => exact absurd (String.ext (hd.trans rfl)) hs
  | cons c cs => simp

/-- On a name whose CPython `Path.suffix` is `.json`, the suffix is `.json`. -/
theorem pathSuffix_stem_json (stem : String) (hs : stem ≠ "") :
    pathSuffix (stem ++ ".json") = ".json" := by
  have hlen : 0 < stem.data.length := data_length_pos_of_ne_empty hs
  simp only [pathSuffix]
  rw [data_append_json]
  rw [List.reverse_append]
  rw [show (['.', 'j', 's', 'o', 'n'] : List Char).reverse
      = ['n', 'o', 's', 'j', '.'] from rfl]
  rw [show ∀ r : List Char,
      List.takeWhile (fun c => c ≠ '.') (['n', 'o', 's', 'j', '.'] ++ r)
        = ['n', 'o', 's', 'j'] from fun _ => rfl]
  rw [if_neg (by simp only [List.length_append, List.length_cons,
    List.length_nil]; omega)]
  rw [if_neg (by simp only [List.length_cons, List.length_nil]; omega)]
  rw [if_neg (by simp only [List.length_append, List.length_cons,
    List.length_nil]; omega)]
  rfl

/-- The naming bridge: for a `memory_file` ending in `.json`,
`with_suffix(".json" + suffix)` produces exactly `str(memory_file) + suffix`
with the `.json` part shared, i.e. `stem + suffix`. -/
theorem withSuffix_stem_json (stem suf : String) (hs : stem ≠ "") :
    withSuffix (stem ++ ".json") suf = stem ++ suf := by
  simp only [withSuffix, pathSuffix_stem_json stem hs]
  rw [data_append_json]
  rw [show (".json" : String).toList = ['.', 'j', 's', 'o', 'n'] from rfl]
  simp only [List.length_append, List.length_cons, List.length_nil]
  rw [show stem.data.length + (0 + 1 + 1 + 1 + 1 + 1) - (0 + 1 + 1 + 1 + 1 + 1)
      = stem.data.length from by omega]
  rw [List.take_left]

/-! ## RateLimiter

`datetime` instants in the limiter are modelled as integer seconds; the
deque becomes a list ordered oldest-first.  The `while`-loop popping from
the left while `requests[0] < window_start` is exactly `List.dropWhile`. -/

structure RateLimiter where
  max_requests : Nat
  window_size : Nat
  requests : List Int

/-- `RateLimiter.can_make_request`, with `now` passed explicitly.  Returns
the boolean answer together with the limiter after trimming. -/
def canMakeRequest (rl : RateLimiter) (now : Int) : Bool × RateLimiter :=
  let windowStart := now - rl.window_size
  let trimmed := rl.requests.dropWhile (fun t => t < windowStart)
  (trimmed.length < rl.max_requests, { rl with requests := trimmed })

/-- `RateLimiter.add_request`. -/
def addRequest (rl : RateLimiter) (now : Int) : RateLimiter :=
  { rl with requests := rl.requests ++ [now] }

/-! ## RetryingClient: `_make_api_request`

The loop `for attempt in range(RETRY_ATTEMPTS)` is embedded with explicit
fuel (remaining iterations) and the attempt index.  The transport is an
oracle mapping the index of each physical call to its outcome.  The trace
records, in order, every rate-limiter wait, physical call, rate-limiter
record and sleep the Python code performs. -/

inductive TransportOutcome where
  | resp (status : Nat) (retryAfter : Option Nat) (body : Json)
  | timeoutExc
  | connExc

inductive ApiError where
  | httpStatus (status : Nat)
  | timedOut
  | other
deriving DecidableEq

/-- What `_make_api_request` does for the caller: returns the completion
text, raises, or — when the final attempt ends in `continue` — falls off
the loop and implicitly returns `None`. -/
inductive ApiResult where
  | ok (text : String)
  | raised (e : ApiError)
  | noneReturn
deriving DecidableEq

inductive Ev where
  | wait
  | call (idx : Nat)
  | record
  | sleep (seconds : Nat)
deriving DecidableEq

/-- `result["choices"][0]["message"]["content"]`; a shape failure raises
(`KeyError`/`IndexError`/`TypeError`), landing in the generic handler. -/
def extractContent (j : Json) : Option String :=
  (j.getField "choices").bind fun c =>
  match c with
  | .arr (first :: _) =>
    (first.getField "message").bind fun m =>
    (m.getField "content").bind fun t =>
    match t with
    | .str s => some s
    | _ => none
  | _ => none

/-- RETRY_DELAY. -/
def retryDelay : Nat := 2

/-- One pass of the retry loop.  `fuel` counts the iterations left including
this one, so `fuel = 0` after decrement means `attempt == RETRY_ATTEMPTS-1`.
Every iteration waits for capacity and issues one physical call; the request
is recorded only after a response object comes back, so attempts that raise
in `client.post` are never recorded. -/
def apiGo (tr : Nat → TransportOutcome) : Nat → Nat → ApiResult × List Ev
  | 0, _ => (.noneReturn, [])
  | fuel + 1, i =>
    match tr i with
    | .timeoutExc =>
      if fuel = 0 then (.raised .timedOut, [.wait, .call i])
      else
        let r := apiGo tr fuel (i + 1)
        (r.1, .wait :: .call i :: .sleep (retryDelay * (i + 1)) :: r.2)
    | .connExc =>
      if fuel = 0 then (.raised .other, [.wait, .call i])
      else
        let r := apiGo tr fuel (i + 1)
        (r.1, .wait :: .call i :: .sleep (retryDelay * (i + 1)) :: r.2)
    | .resp status retryAfter body =>
      if status = 429 then
        -- sleep for Retry-After (default RETRY_DELAY), then `continue`:
        -- the `for` loop advances, so this consumes an attempt.
        let r := apiGo tr fuel (i + 1)
        (r.1, .wait :: .call i :: .record :: .sleep (retryAfter.getD retryDelay) :: r.2)
      else if status < 200 ∨ 300 ≤ status then
        -- response.raise_for_status() raises HTTPStatusError on non-2xx.
        if fuel = 0 then (.raised (.httpStatus status), [.wait, .call i, .record])
        else
          let r := apiGo tr fuel (i + 1)
          (r.1, .wait :: .call i :: .record :: .sleep (retryDelay * (i + 1)) :: r.2)
      else
        match extractContent body with
        | some s => (.ok s, [.wait, .call i, .record])
        | none =>
          if fuel = 0 then (.raised .other, [.wait, .call i, .record])
          else
            let r := apiGo tr fuel (i + 1)
            (r.1, .wait :: .call i :: .record :: .sleep (retryDelay * (i + 1)) :: r.2)

/-- RETRY_ATTEMPTS. -/
def retryAttempts : Nat := 3

/-- `PersistentChat._make_api_request`. -/
def makeApiRequest (tr : Nat → TransportOutcome) : ApiResult × List Ev :=
  apiGo tr retryAttempts 0

def sleepsOf (evs : List Ev) : List Nat :=
  evs.filterMap fun e => match e with | .sleep d => some d | _ => none

def callsOf (evs : List Ev) : List Nat :=
  evs.filterMap fun e => match e with | .call k => some k | _ => none

def recordCount (evs : List Ev) : Nat :=
  evs.countP fun e => match e with | .record => true | _ => false

/-! ## Prompt construction and `chat`

Two observed variants build the request message list differently:
`persistent_chat-QwenEdited.py` sends the stored history plus the new user
message with no system preamble; `persistent_chat - Copy.py` prepends
`SYSTEM_MESSAGE` and skips any stored message whose role is `system`. -/

/-- Prompt of `PersistentChat.chat` in `persistent_chat-QwenEdited.py`. -/
def promptQwen (mem : ChatMemory) (message : String) : List (String × String) :=
  (mem.messages.map fun m => (m.role, m.content)) ++ [("user", message)]

/-- Prompt of `PersistentChat.chat` in `persistent_chat - Copy.py`:
`[{system}] + [stored if role != "system"] + [{user}]`, where the stored
part mirrors the guarded list comprehension. -/
def promptCopy (preamble : String) (mem : ChatMemory) (message : String) :
    List (String × String) :=
  (("system", preamble) ::
    mem.messages.filterMap fun m =>
      if m.role = "system" then none else some (m.role, m.content))
  ++ [("user", message)]

/-- A human-readable rendering of the exception caught by `chat`
(Python formats `f"Error: {str(e)}"`; the library-supplied `str(e)` text is
abstracted to a fixed description per exception class). -/
def errText : ApiError → String
  | .httpStatus code => "HTTP error " ++ toString code
  | .timedOut => "request timed out"
  | .other => "request failed"

structure ChatOutput where
  reply : String
  memory : ChatMemory
  fs : FS
  sentPrompt : Option (List (String × String))

/-- Python `str.strip()`: drop leading and trailing whitespace. -/
def pyStrip (s : String) : String :=
  String.mk
    (((s.toList.dropWhile Char.isWhitespace).reverse.dropWhile
        Char.isWhitespace).reverse)

/-- `PersistentChat.chat` of `persistent_chat-QwenEdited.py`.

`nowU`/`nowA` stand for the two `datetime.now()` calls producing the new
timestamps, and `w` for how the write step of the save turns out.  The body
runs under `try/except Exception`, so every branch returns a string:

* empty/whitespace input short-circuits before memory or network;
* a successful request appends the user and assistant messages and saves;
* a raised transport error is formatted and memory is untouched;
* when `_make_api_request` falls off its loop and returns `None`
  (three rate-limited attempts), the user message has already been appended
  when `Message(role="assistant", content=None)` raises a pydantic
  `ValidationError`, so memory keeps that extra message and no save runs. -/
def chat (mem : ChatMemory) (fs : FS) (memoryFile : String) (message : String)
    (tr : Nat → TransportOutcome) (nowU nowA : DateTime) (w : WriteOutcome) :
    ChatOutput :=
  if pyStrip message = "" then
    ⟨"Message cannot be empty", mem, fs, none⟩
  else
    let prompt := promptQwen mem message
    match (makeApiRequest tr).1 with
    | .ok text =>
      let mem2 : ChatMemory :=
        ⟨mem.messages ++ [⟨"user", message, nowU⟩, ⟨"assistant", text, nowA⟩],
         mem.metadata⟩
      ⟨text, mem2, saveMemory fs memoryFile mem2 w, some prompt⟩
    | .raised e =>
      ⟨"Error: " ++ errText e, mem, fs, some prompt⟩
    | .noneReturn =>
      ⟨"Error: assistant message failed validation",
       ⟨mem.messages ++ [⟨"user", message, nowU⟩], mem.metadata⟩, fs, some prompt⟩

/-- `PersistentChat.get_chat_history`. -/
def getChatHistory (mem : ChatMemory) : List (String × String × String) :=
  mem.messages.map fun m => (m.role, m.content, m.timestamp.isoformat)

/-! ## Generic helper lemmas -/

theorem string_append_right_ne (p a b : String) (h : a.length ≠ b.length) :
    p ++ a ≠ p ++ b := by
  intro he
  have hl : (p ++ a).length = (p ++ b).length := congrArg String.length he
  rw [String.length_append, String.length_append] at hl
  omega

theorem string_self_ne_append (p s : String) (hs : s ≠ "") :
    p ≠ p ++ s := by
  intro he
  have hl : p.length = (p ++ s).length := congrArg String.length he
  rw [String.length_append] at hl
  have : 0 < s.length := data_length_pos_of_ne_empty hs
  omega

theorem fsWrite_same (fs : FS) (p : String) (d : FileData) :
    fsWrite fs p d p = some d := by
  simp [fsWrite]

theorem fsWrite_other (fs : FS) (p q : String) (d : FileData) (h : q ≠ p) :
    fsWrite fs p d q = fs q := by
  simp [fsWrite, h]

theorem fsDelete_same (fs : FS) (p : String) : fsDelete fs p p = none := by
  simp [fsDelete]

theorem fsDelete_other (fs : FS) (p q : String) (h : q ≠ p) :
    fsDelete fs p q = fs q := by
  simp [fsDelete, h]

theorem fsRename_of_some {fs : FS} {src dst : String} {d : FileData}
    (h : fs src = some d) :
    fsRename fs src dst = fsWrite (fsDelete fs src) dst d := by
  simp only [fsRename, h]

/-! ## Claim C9: the sliding window -/

/-- C9: with `maxRequests = 50` and `windowSeconds = 60`, after 50 recorded
instants all within the trailing window, `can_make_request` answers `false`;
once the oldest instant has aged past the window while the other 49 remain
inside it, the answer is `true` again; and the check first trims entries
older than `now - windowSeconds`, then compares the remaining count
against `maxRequests`. -/
theorem c9_rate_limiter_window (now : Int) (reqs : List Int) :
    (reqs.length = 50 → (∀ t ∈ reqs, now - 60 ≤ t) →
      (canMakeRequest ⟨50, 60, reqs⟩ now).1 = false)
    ∧ (∀ t0 rest, reqs = t0 :: rest → t0 < now - 60 →
        (∀ t ∈ rest, now - 60 ≤ t) → reqs.length = 50 →
        (canMakeRequest ⟨50, 60, reqs⟩ now).1 = true)
    ∧ (canMakeRequest ⟨50, 60, reqs⟩ now).2.requests
        = reqs.dropWhile (fun t => t < now - 60)
    ∧ (canMakeRequest ⟨50, 60, reqs⟩ now).1
        = ((reqs.dropWhile (fun t => t < now - 60)).length < 50 : Bool) := by
  have hcast : ((60 : Nat) : Int) = (60 : Int) := by norm_num
  refine ⟨?_, ?_, ?_, ?_⟩
  · intro hlen hin
    cases hr : reqs with
    | nil => rw [hr] at hlen; simp at hlen
    | cons a rest =>
      have ha : now - 60 ≤ a := hin a (by rw [hr]; exact List.mem_cons_self a rest)
      simp only [canMakeRequest, hcast, hr, List.dropWhile_cons]
      rw [if_neg (by simp; omega)]
      rw [hr] at hlen
      simp [hlen]
  · intro t0 rest hr ht0 hin hlen
    simp only [canMakeRequest, hcast, hr, List.dropWhile_cons]
    rw [if_pos (by simp; omega)]
    have hrest : rest.dropWhile (fun t => decide (t < now - 60)) = rest := by
      cases hrr : rest with
      | nil => rfl
      | cons b rest2 =>
        have hb : now - 60 ≤ b := hin b (by rw [hrr]; exact List.mem_cons_self b rest2)
        rw [List.dropWhile_cons, if_neg (by simp; omega)]
    rw [hrest]
    rw [hr] at hlen
    simp only [List.length_cons] at hlen
    simp [show rest.length = 49 from by omega]
  · simp [canMakeRequest, hcast]
  · simp [canMakeRequest, hcast]

/-- Witness for C9 at a concrete window state: 50 instants at second 950
with `now = 1000` exhaust the window; if the oldest instead sits at second
900 (aged out) the window frees up again. -/
theorem c9_rate_limiter_window_witness :
    (canMakeRequest ⟨50, 60, List.replicate 50 950⟩ 1000).1 = false
    ∧ (canMakeRequest ⟨50, 60, 900 :: List.replicate 49 950⟩ 1000).1 = true := by
  constructor
  · exact (c9_rate_limiter_window 1000 (List.replicate 50 950)).1
      (by decide) (by decide)
  · exact (c9_rate_limiter_window 1000 (900 :: List.replicate 49 950)).2.1
      900 (List.replicate 49 950) rfl (by decide) (by decide) (by decide)

/-! ## Claim C10: syntactically valid JSON of the wrong shape -/

/-- C10: when the memory file holds valid JSON whose shape the loader
cannot use (missing keys, non-string fields, unparseable timestamp, ...),
`_load_memory` lands in the generic `except Exception` handler: empty
memory, no raise, no `.backup`, and the file stays in place untouched. -/
theorem c10_load_wrong_shape (fs : FS) (p : String) (j : Json)
    (hp : fs p = some (.json j)) (hdec : decodeMemory j = none) :
    loadMemory fs p = (emptyMemory, fs) := by
  simp [loadMemory, hp, hdec]

/-- Witness for C10: a JSON object with no `messages` key, and a message
list whose timestamp text is not ISO-8601, both load as empty memory with
the filesystem unchanged. -/
theorem c10_load_wrong_shape_witness :
    loadMemory
      (fun q => if q = "chat_memory.json" then some (.json (.obj [])) else none)
      "chat_memory.json"
    = (emptyMemory,
       fun q => if q = "chat_memory.json" then some (.json (.obj [])) else none)
    ∧ loadMemory
      (fun q => if q = "chat_memory.json" then
          some (.json (.obj [("messages", .arr [.obj [("role", .str "user"),
            ("content", .str "hi"), ("timestamp", .str "not-a-date")]])]))
        else none)
      "chat_memory.json"
    = (emptyMemory,
       fun q => if q = "chat_memory.json" then
          some (.json (.obj [("messages", .arr [.obj [("role", .str "user"),
            ("content", .str "hi"), ("timestamp", .str "not-a-date")]])]))
        else none) := by
  constructor
  · exact c10_load_wrong_shape _ "chat_memory.json" _ (by rfl) (by rfl)
  · exact c10_load_wrong_shape _ "chat_memory.json" _ (by rfl) (by rfl)

/-! ## Claim C5: the persistence round-trip -/

theorem decodeMessage_encodeMessage (m : Message)
    (h : m.timestamp.isValid = true) :
    decodeMessage (encodeMessage m) = some m := by
  have key : decodeMessage (encodeMessage m)
      = (fromisoformat m.timestamp.isoformat).map
          fun d => ⟨m.role, m.content, d⟩ := rfl
  rw [key, fromisoformat_isoformat m.timestamp h]
  rfl

theorem mapM_decode_encode (msgs : List Message)
    (h : ∀ m ∈ msgs, m.timestamp.isValid = true) :
    (msgs.map encodeMessage).mapM decodeMessage = some msgs := by
  induction msgs with
  | nil => rfl
  | cons m rest ih =>
    rw [List.map_cons, List.mapM_cons]
    rw [decodeMessage_encodeMessage m (h m (List.mem_cons_self m rest))]
    rw [ih fun x hx => h x (List.mem_cons_of_mem m hx)]
    rfl

theorem decodeMemory_serializeMemory (mem : ChatMemory)
    (h : ∀ m ∈ mem.messages, m.timestamp.isValid = true) :
    decodeMemory (serializeMemory mem) = some ⟨mem.messages, mem.metadata⟩ := by
  have key : decodeMemory (serializeMemory mem)
      = ((mem.messages.map encodeMessage).mapM decodeMessage).bind
          fun msgs => some ⟨msgs, mem.metadata⟩ := rfl
  rw [key, mapM_decode_encode mem.messages h]
  rfl

/-- After a fully successful `_save_memory`, the target path holds exactly
the serialized memory, whatever the cleanup branch did to `.bak` names. -/
theorem saveMemory_success_target (fs : FS) (p : String) (mem : ChatMemory) :
    saveMemory fs p mem .success p = some (.json (serializeMemory mem)) := by
  have hne : p ≠ p ++ ".bak" := string_self_ne_append p ".bak" (by decide)
  simp only [saveMemory]
  split <;> split <;>
    first
      | rw [fsDelete_other _ _ _ hne, fsWrite_same]
      | rw [fsWrite_same]

/-- C5: a successful `save` followed by `load` reproduces the ordered
sequence of messages — role, content and timestamp included, the latter
having round-tripped through the ISO-8601 text — for every message count,
every path and every starting filesystem. -/
theorem c5_save_load_roundtrip (fs : FS) (p : String) (mem : ChatMemory)
    (h : ∀ m ∈ mem.messages, m.timestamp.isValid = true) :
    (loadMemory (saveMemory fs p mem .success) p).1.messages = mem.messages := by
  simp only [loadMemory, saveMemory_success_target fs p mem,
    decodeMemory_serializeMemory mem h]

/-- Witness for C5: a two-message memory (with and without microseconds)
survives the round-trip on an initially empty filesystem. -/
theorem c5_save_load_roundtrip_witness :
    (∀ m ∈ ([⟨"user", "hello", ⟨2024, 11, 30, 23, 59, 7, 123456⟩⟩,
              ⟨"assistant", "hi!", ⟨2024, 12, 1, 0, 0, 0, 0⟩⟩] : List Message),
       m.timestamp.isValid = true)
    ∧ (loadMemory
        (saveMemory (fun _ => none) "chat_memory.json"
          ⟨[⟨"user", "hello", ⟨2024, 11, 30, 23, 59, 7, 123456⟩⟩,
            ⟨"assistant", "hi!", ⟨2024, 12, 1, 0, 0, 0, 0⟩⟩], []⟩ .success)
        "chat_memory.json").1.messages
      = [⟨"user", "hello", ⟨2024, 11, 30, 23, 59, 7, 123456⟩⟩,
         ⟨"assistant", "hi!", ⟨2024, 12, 1, 0, 0, 0, 0⟩⟩] := by
  refine ⟨by decide, ?_⟩
  exact c5_save_load_roundtrip (fun _ => none) "chat_memory.json"
    ⟨[⟨"user", "hello", ⟨2024, 11, 30, 23, 59, 7, 123456⟩⟩,
      ⟨"assistant", "hi!", ⟨2024, 12, 1, 0, 0, 0, 0⟩⟩], []⟩ (by decide)

/-! ## Claim C2: corrupt-file recovery -/

/-- C2 as stated is false: `_load_memory` quarantines with a bare
`Path.rename`, which on POSIX silently replaces an existing destination.
Starting with a corrupt memory file and a pre-existing `.backup` holding
`"old"`, the load overwrites that `.backup` with the corrupt bytes. -/
theorem c2_backup_overwrite_counterexample :
    (loadMemory
      (fun q => if q = "chat_memory.json" then some (.corrupt "bad")
        else if q = "chat_memory.json.backup" then some (.corrupt "old")
        else none)
      "chat_memory.json").2 "chat_memory.json.backup"
    = some (.corrupt "bad") := by
  rfl

/-- C2, amended: on a corrupt memory file, `load` returns empty memory
without raising and moves the file (original bytes intact) to the
`.backup` path, but an existing `.backup` there is overwritten rather than
preserved. -/
theorem c2_corrupt_quarantine (stem s : String) (hs : stem ≠ "") (fs : FS)
    (hp : fs (stem ++ ".json") = some (.corrupt s)) :
    (loadMemory fs (stem ++ ".json")).1 = emptyMemory
    ∧ (loadMemory fs (stem ++ ".json")).2 (stem ++ ".json.backup")
        = some (.corrupt s)
    ∧ (loadMemory fs (stem ++ ".json")).2 (stem ++ ".json") = none := by
  have hws : withSuffix (stem ++ ".json") ".json.backup"
      = stem ++ ".json.backup" := withSuffix_stem_json stem ".json.backup" hs
  have hne : stem ++ ".json" ≠ stem ++ ".json.backup" :=
    string_append_right_ne stem ".json" ".json.backup" (by decide)
  refine ⟨?_, ?_, ?_⟩
  · simp only [loadMemory, hp, hws]
  · simp only [loadMemory, hp, hws, fsRename]
    exact fsWrite_same _ _ _
  · simp only [loadMemory, hp, hws, fsRename]
    rw [fsWrite_other _ _ _ _ hne]
    exact fsDelete_same _ _

/-- Witness for the amended C2 on a concrete corrupt file. -/
theorem c2_corrupt_quarantine_witness :
    ("chat_memory" : String) ≠ ""
    ∧ (loadMemory
        (fun q => if q = "chat_memory.json" then some (.corrupt "not json")
          else none) "chat_memory.json").1 = emptyMemory
    ∧ (loadMemory
        (fun q => if q = "chat_memory.json" then some (.corrupt "not json")
          else none) "chat_memory.json").2 "chat_memory.json.backup"
        = some (.corrupt "not json")
    ∧ (loadMemory
        (fun q => if q = "chat_memory.json" then some (.corrupt "not json")
          else none) "chat_memory.json").2 "chat_memory.json" = none := by
  have h := c2_corrupt_quarantine "chat_memory" "not json" (by decide)
    (fun q => if q = "chat_memory.json" then some (.corrupt "not json") else none)
    (by rfl)
  exact ⟨by decide, h.1, h.2.1, h.2.2⟩

/-! ## Claim C1: save rollback and `.bak` cleanup -/

/-- C1 as stated is false for a `memory_file` whose name does not end in
`.json`: the pre-write snapshot goes to `with_suffix(".json.bak")` (here
`memory.json.bak`) while cleanup and rollback look at `str(path) + ".bak"`
(here `memory.txt.bak`).  After a fully successful save of `memory.txt`, the
snapshot file `memory.json.bak` still exists; and when the write step fails,
the rollback misses it, leaving the target holding the partial bytes
instead of its pre-save content. -/
theorem c1_bak_mismatch_counterexample :
    saveMemory (fun q => if q = "memory.txt" then some (.corrupt "old") else none)
      "memory.txt" emptyMemory .success "memory.json.bak"
      = some (.corrupt "old")
    ∧ saveMemory (fun q => if q = "memory.txt" then some (.corrupt "old") else none)
      "memory.txt" emptyMemory (.failMidWrite "parti") "memory.txt"
      = some (.corrupt "parti") := by
  exact ⟨rfl, rfl⟩

/-- C1, amended: restricted to memory files named `<stem>.json` (the
default `chat_memory.json` included), where the two `.bak` spellings agree.
If the target existed before the save, then (a) whenever the write step
fails — whether it leaves a partial file or no file — the target afterwards
holds exactly its pre-save content and no `.bak` remains, and (b) after a
successful save the target holds the new serialized memory and no `.bak`
remains. -/
theorem c1_save_rollback (stem : String) (hs : stem ≠ "") (fs : FS)
    (d : FileData) (mem : ChatMemory)
    (hp : fs (stem ++ ".json") = some d) :
    (∀ s, saveMemory fs (stem ++ ".json") mem (.failMidWrite s) (stem ++ ".json")
          = some d
        ∧ saveMemory fs (stem ++ ".json") mem (.failMidWrite s)
          ((stem ++ ".json") ++ ".bak") = none)
    ∧ (saveMemory fs (stem ++ ".json") mem .failNoFile (stem ++ ".json")
          = some d
        ∧ saveMemory fs (stem ++ ".json") mem .failNoFile
          ((stem ++ ".json") ++ ".bak") = none)
    ∧ (saveMemory fs (stem ++ ".json") mem .success (stem ++ ".json")
          = some (.json (serializeMemory mem))
        ∧ saveMemory fs (stem ++ ".json") mem .success
          ((stem ++ ".json") ++ ".bak") = none) := by
  have hne : (stem ++ ".json") ≠ (stem ++ ".json") ++ ".bak" :=
    string_self_ne_append _ ".bak" (by decide)
  have happ : stem ++ ".json.bak" = (stem ++ ".json") ++ ".bak" := by
    have h1 : (stem ++ ".json.bak").data
        = ((stem ++ ".json") ++ ".bak").data := by
      simp only [String.data_append, List.append_assoc]
      rfl
    exact String.ext h1
  have hws : withSuffix (stem ++ ".json") ".json.bak"
      = (stem ++ ".json") ++ ".bak" := by
    rw [withSuffix_stem_json stem ".json.bak" hs, happ]
  have hcond : (fs (stem ++ ".json")).isSome = true := by rw [hp]; rfl
  have e1 : fsRename fs (stem ++ ".json") ((stem ++ ".json") ++ ".bak")
      = fsWrite (fsDelete fs (stem ++ ".json")) ((stem ++ ".json") ++ ".bak") d :=
    fsRename_of_some hp
  refine ⟨?_, ⟨?_, ?_⟩, ?_, ?_⟩
  · intro s
    have hc2 : fsWrite
        (fsWrite (fsDelete fs (stem ++ ".json")) ((stem ++ ".json") ++ ".bak") d)
        (stem ++ ".json") (.corrupt s) ((stem ++ ".json") ++ ".bak") = some d := by
      rw [fsWrite_other _ _ _ _ (Ne.symm hne), fsWrite_same]
    constructor
    · simp only [saveMemory, hws]
      rw [if_pos hcond, e1, if_pos (by rw [hc2]; rfl), fsRename_of_some hc2,
        fsWrite_same]
    · simp only [saveMemory, hws]
      rw [if_pos hcond, e1, if_pos (by rw [hc2]; rfl), fsRename_of_some hc2,
        fsWrite_other _ _ _ _ (Ne.symm hne), fsDelete_same]
  · have hb : fsWrite (fsDelete fs (stem ++ ".json")) ((stem ++ ".json") ++ ".bak") d
        ((stem ++ ".json") ++ ".bak") = some d := fsWrite_same _ _ _
    simp only [saveMemory, hws]
    rw [if_pos hcond, e1, if_pos (by rw [hb]; rfl), fsRename_of_some hb,
      fsWrite_same]
  · have hb : fsWrite (fsDelete fs (stem ++ ".json")) ((stem ++ ".json") ++ ".bak") d
        ((stem ++ ".json") ++ ".bak") = some d := fsWrite_same _ _ _
    simp only [saveMemory, hws]
    rw [if_pos hcond, e1, if_pos (by rw [hb]; rfl), fsRename_of_some hb,
      fsWrite_other _ _ _ _ (Ne.symm hne), fsDelete_same]
  · exact saveMemory_success_target fs (stem ++ ".json") mem
  · have hc2 : fsWrite
        (fsWrite (fsDelete fs (stem ++ ".json")) ((stem ++ ".json") ++ ".bak") d)
        (stem ++ ".json") (.json (serializeMemory mem))
        ((stem ++ ".json") ++ ".bak") = some d := by
      rw [fsWrite_other _ _ _ _ (Ne.symm hne), fsWrite_same]
    simp only [saveMemory, hws]
    rw [if_pos hcond, e1, if_pos (by rw [hc2]; rfl), fsDelete_same]

/-- Witness for the amended C1 at the default path `chat_memory.json`,
with `"prior"` as the pre-save bytes. -/
theorem c1_save_rollback_witness :
    ("chat_memory" : String) ≠ ""
    ∧ saveMemory (fun q => if q = "chat_memory.json" then some (.corrupt "prior")
        else none) "chat_memory.json" emptyMemory (.failMidWrite "parti")
        "chat_memory.json" = some (.corrupt "prior")
    ∧ saveMemory (fun q => if q = "chat_memory.json" then some (.corrupt "prior")
        else none) "chat_memory.json" emptyMemory (.failMidWrite "parti")
        ("chat_memory.json" ++ ".bak") = none
    ∧ saveMemory (fun q => if q = "chat_memory.json" then some (.corrupt "prior")
        else none) "chat_memory.json" emptyMemory .success
        ("chat_memory.json" ++ ".bak") = none := by
  have h := c1_save_rollback "chat_memory" (by decide)
    (fun q => if q = "chat_memory.json" then some (.corrupt "prior") else none)
    (.corrupt "prior") emptyMemory (by rfl)
  exact ⟨by decide, (h.1 "parti").1, (h.1 "parti").2, h.2.2.2⟩

/-! ## Stepping lemmas for the retry loop -/

/-- A well-formed success body, `{"choices": [{"message": {"content": s}}]}`. -/
def okBody (s : String) : Json :=
  .obj [("choices", .arr [.obj [("message", .obj [("content", .str s)])]])]

theorem extractContent_okBody (s : String) :
    extractContent (okBody s) = some s := rfl

theorem apiGo_429 (tr : Nat → TransportOutcome) (fuel i : Nat)
    (ra : Option Nat) (body : Json) (h : tr i = .resp 429 ra body) :
    apiGo tr (fuel + 1) i
      = ((apiGo tr fuel (i + 1)).1,
         .wait :: .call i :: .record :: .sleep (ra.getD retryDelay)
           :: (apiGo tr fuel (i + 1)).2) := by
  simp only [apiGo, h]
  rw [if_true]

theorem apiGo_2xx (tr : Nat → TransportOutcome) (fuel i status : Nat)
    (ra : Option Nat) (body : Json) (s : String)
    (h : tr i = .resp status ra body) (h429 : status ≠ 429)
    (h2xx : ¬(status < 200 ∨ 300 ≤ status))
    (hx : extractContent body = some s) :
    apiGo tr (fuel + 1) i = (.ok s, [.wait, .call i, .record]) := by
  simp only [apiGo, h]
  rw [if_neg h429, if_neg h2xx, hx]

theorem apiGo_err_step (tr : Nat → TransportOutcome) (fuel i status : Nat)
    (ra : Option Nat) (body : Json)
    (h : tr i = .resp status ra body) (h429 : status ≠ 429)
    (herr : status < 200 ∨ 300 ≤ status) (hf : fuel ≠ 0) :
    apiGo tr (fuel + 1) i
      = ((apiGo tr fuel (i + 1)).1,
         .wait :: .call i :: .record :: .sleep (retryDelay * (i + 1))
           :: (apiGo tr fuel (i + 1)).2) := by
  simp only [apiGo, h]
  rw [if_neg h429, if_pos herr, if_neg hf]

theorem apiGo_err_last (tr : Nat → TransportOutcome) (i status : Nat)
    (ra : Option Nat) (body : Json)
    (h : tr i = .resp status ra body) (h429 : status ≠ 429)
    (herr : status < 200 ∨ 300 ≤ status) :
    apiGo tr 1 i = (.raised (.httpStatus status), [.wait, .call i, .record]) := by
  simp only [apiGo, h]
  rw [if_neg h429, if_pos herr, if_true]

/-! ## Claim C3: rate-limit handling and the attempt budget -/

/-- C3 as stated is false: the 429 branch ends in `continue` inside
`for attempt in range(RETRY_ATTEMPTS)`, so a rate-limited call does consume
an attempt.  Three straight 429s exhaust the 3-attempt budget: the loop
falls off after exactly 3 physical calls and the function returns `None`
(rather than continuing to retry as a budget-exempt wait would). -/
theorem c3_budget_counterexample :
    (makeApiRequest (fun _ => .resp 429 (some 7) .null)).1 = .noneReturn
    ∧ (callsOf (makeApiRequest (fun _ => .resp 429 (some 7) .null)).2).length
        = 3 := by
  exact ⟨rfl, rfl⟩

/-- C3, amended: on a 429 the client sleeps for the advertised delay
(`Retry-After`, defaulting to RETRY_DELAY) and retries, but the retry
consumes an attempt from the budget of 3: a 429 followed by a successful
call yields the success after exactly one sleep of the advertised length
and two physical calls, while three consecutive 429s end the loop with no
result after exactly three calls. -/
theorem c3_rate_limit_retry :
    (∀ (ra : Option Nat) (body : Json) (s : String)
        (tr : Nat → TransportOutcome),
      tr 0 = .resp 429 ra body → tr 1 = .resp 200 none (okBody s) →
      (makeApiRequest tr).1 = .ok s
        ∧ sleepsOf (makeApiRequest tr).2 = [ra.getD retryDelay]
        ∧ (callsOf (makeApiRequest tr).2).length = 2)
    ∧ (∀ (ra : Option Nat) (body : Json),
      (makeApiRequest (fun _ => .resp 429 ra body)).1 = .noneReturn
        ∧ (callsOf (makeApiRequest (fun _ => .resp 429 ra body)).2).length
            = 3) := by
  constructor
  · intro ra body s tr h0 h1
    have s1 : apiGo tr 3 0
        = ((apiGo tr 2 1).1,
           .wait :: .call 0 :: .record :: .sleep (ra.getD retryDelay)
             :: (apiGo tr 2 1).2) :=
      apiGo_429 tr 2 0 ra body h0
    have s2 : apiGo tr 2 1 = (.ok s, [.wait, .call 1, .record]) :=
      apiGo_2xx tr 1 1 200 none (okBody s) s h1 (by decide) (by decide)
        (extractContent_okBody s)
    have e : makeApiRequest tr
        = (.ok s, [.wait, .call 0, .record, .sleep (ra.getD retryDelay),
                   .wait, .call 1, .record]) := by
      show apiGo tr 3 0 = _
      rw [s1, s2]
    rw [e]
    exact ⟨rfl, rfl, rfl⟩
  · intro ra body
    have s1 : apiGo (fun _ => .resp 429 ra body) 3 0
        = ((apiGo (fun _ => .resp 429 ra body) 2 1).1,
           .wait :: .call 0 :: .record :: .sleep (ra.getD retryDelay)
             :: (apiGo (fun _ => .resp 429 ra body) 2 1).2) :=
      apiGo_429 _ 2 0 ra body rfl
    have s2 : apiGo (fun _ => .resp 429 ra body) 2 1
        = ((apiGo (fun _ => .resp 429 ra body) 1 2).1,
           .wait :: .call 1 :: .record :: .sleep (ra.getD retryDelay)
             :: (apiGo (fun _ => .resp 429 ra body) 1 2).2) :=
      apiGo_429 _ 1 1 ra body rfl
    have s3 : apiGo (fun _ => .resp 429 ra body) 1 2
        = ((apiGo (fun _ => .resp 429 ra body) 0 3).1,
           .wait :: .call 2 :: .record :: .sleep (ra.getD retryDelay)
             :: (apiGo (fun _ => .resp 429 ra body) 0 3).2) :=
      apiGo_429 _ 0 2 ra body rfl
    have e : makeApiRequest (fun _ => .resp 429 ra body)
        = (.noneReturn,
           [.wait, .call 0, .record, .sleep (ra.getD retryDelay),
            .wait, .call 1, .record, .sleep (ra.getD retryDelay),
            .wait, .call 2, .record, .sleep (ra.getD retryDelay)]) := by
      show apiGo (fun _ => .resp 429 ra body) 3 0 = _
      rw [s1, s2, s3]
      rfl
    rw [e]
    exact ⟨rfl, rfl⟩

/-- Witness for the amended C3: a 429 advertising a 7-second delay followed
by a successful call. -/
theorem c3_rate_limit_retry_witness :
    (makeApiRequest (fun k => if k = 0 then .resp 429 (some 7) .null
        else .resp 200 none (okBody "hi"))).1 = .ok "hi"
    ∧ sleepsOf (makeApiRequest (fun k => if k = 0 then .resp 429 (some 7) .null
        else .resp 200 none (okBody "hi"))).2 = [(some 7).getD retryDelay]
    ∧ (callsOf (makeApiRequest (fun k => if k = 0 then .resp 429 (some 7) .null
        else .resp 200 none (okBody "hi"))).2).length = 2 :=
  c3_rate_limit_retry.1 (some 7) .null "hi" _ rfl rfl

/-! ## Claim C4: client errors other than 429 -/

/-- C4 as stated is false: `raise_for_status` throws `HTTPStatusError` for
any non-2xx status, and the handler retries it like a transient failure.
A constant 400 response is called 3 times with backoff sleeps of 2 and 4
seconds before the error surfaces — not failed immediately. -/
theorem c4_client_error_counterexample :
    (callsOf (makeApiRequest (fun _ => .resp 400 none .null)).2).length = 3
    ∧ sleepsOf (makeApiRequest (fun _ => .resp 400 none .null)).2 = [2, 4]
    ∧ (makeApiRequest (fun _ => .resp 400 none .null)).1
        = .raised (.httpStatus 400) := by
  exact ⟨rfl, rfl, rfl⟩

/-- C4, amended: a 4xx status other than 429 is retried exactly like a
server error — linear backoff `RETRY_DELAY * (attempt+1)` between the three
attempts — and the `HTTPStatusError` is raised only once the budget is
exhausted. -/
theorem c4_client_error_retried (status : Nat) (ra : Option Nat) (body : Json)
    (h4 : 400 ≤ status) (h5 : status < 500) (hne : status ≠ 429) :
    (makeApiRequest (fun _ => .resp status ra body)).1
        = .raised (.httpStatus status)
    ∧ sleepsOf (makeApiRequest (fun _ => .resp status ra body)).2 = [2, 4]
    ∧ (callsOf (makeApiRequest (fun _ => .resp status ra body)).2).length
        = 3 := by
  have herr : status < 200 ∨ 300 ≤ status := Or.inr (by omega)
  have s1 : apiGo (fun _ => .resp status ra body) 3 0
      = ((apiGo (fun _ => .resp status ra body) 2 1).1,
         .wait :: .call 0 :: .record :: .sleep (retryDelay * (0 + 1))
           :: (apiGo (fun _ => .resp status ra body) 2 1).2) :=
    apiGo_err_step _ 2 0 status ra body rfl hne herr (by decide)
  have s2 : apiGo (fun _ => .resp status ra body) 2 1
      = ((apiGo (fun _ => .resp status ra body) 1 2).1,
         .wait :: .call 1 :: .record :: .sleep (retryDelay * (1 + 1))
           :: (apiGo (fun _ => .resp status ra body) 1 2).2) :=
    apiGo_err_step _ 1 1 status ra body rfl hne herr (by decide)
  have s3 : apiGo (fun _ => .resp status ra body) 1 2
      = (.raised (.httpStatus status), [.wait, .call 2, .record]) :=
    apiGo_err_last _ 2 status ra body rfl hne herr
  have e : makeApiRequest (fun _ => .resp status ra body)
      = (.raised (.httpStatus status),
         [.wait, .call 0, .record, .sleep (retryDelay * (0 + 1)),
          .wait, .call 1, .record, .sleep (retryDelay * (1 + 1)),
          .wait, .call 2, .record]) := by
    show apiGo (fun _ => .resp status ra body) 3 0 = _
    rw [s1, s2, s3]
  rw [e]
  exact ⟨rfl, rfl, rfl⟩

/-- Witness for the amended C4 at status 404. -/
theorem c4_client_error_retried_witness :
    (makeApiRequest (fun _ => .resp 404 none .null)).1
        = .raised (.httpStatus 404)
    ∧ sleepsOf (makeApiRequest (fun _ => .resp 404 none .null)).2 = [2, 4]
    ∧ (callsOf (makeApiRequest (fun _ => .resp 404 none .null)).2).length
        = 3 :=
  c4_client_error_retried 404 none .null (by decide) (by decide) (by decide)

/-! ## Claim C8: when the rate limiter records -/

def isCallOrRecord (e : Ev) : Bool :=
  match e with
  | .call _ => true
  | .record => true
  | _ => false

/-- Projection of a trace onto its physical calls and limiter records. -/
def callRecordEvents (evs : List Ev) : List Ev :=
  evs.filter isCallOrRecord

def isRespOutcome (o : TransportOutcome) : Bool :=
  match o with
  | .resp _ _ _ => true
  | _ => false

/-- The call/record pattern the code actually produces: one `call` per
physical attempt, followed by one `record` exactly when that attempt got an
HTTP response back. -/
def expectedCallRecord (tr : Nat → TransportOutcome) : List Nat → List Ev
  | [] => []
  | k :: ks =>
    .call k ::
      (if isRespOutcome (tr k) then .record :: expectedCallRecord tr ks
       else expectedCallRecord tr ks)

theorem apiGo_callRecord (tr : Nat → TransportOutcome) :
    ∀ fuel i,
      callRecordEvents (apiGo tr fuel i).2
        = expectedCallRecord tr (callsOf (apiGo tr fuel i).2) := by
  intro fuel
  induction fuel with
  | zero => intro i; rfl
  | succ fuel ih =>
    intro i
    cases htr : tr i with
    | timeoutExc =>
      by_cases hf : fuel = 0
      · subst hf
        simp only [apiGo, htr, if_true]
        simp [callRecordEvents, callsOf, expectedCallRecord, isCallOrRecord,
          htr, isRespOutcome]
      · simp only [apiGo, htr, if_neg hf]
        simp [callRecordEvents, callsOf, expectedCallRecord, isCallOrRecord,
          htr, isRespOutcome, List.filter_cons, List.filterMap_cons]
        exact ih (i + 1)
    | connExc =>
      by_cases hf : fuel = 0
      · subst hf
        simp only [apiGo, htr, if_true]
        simp [callRecordEvents, callsOf, expectedCallRecord, isCallOrRecord,
          htr, isRespOutcome]
      · simp only [apiGo, htr, if_neg hf]
        simp [callRecordEvents, callsOf, expectedCallRecord, isCallOrRecord,
          htr, isRespOutcome, List.filter_cons, List.filterMap_cons]
        exact ih (i + 1)
    | resp status ra body =>
      by_cases h429 : status = 429
      · subst h429
        simp only [apiGo, htr, if_true]
        simp [callRecordEvents, callsOf, expectedCallRecord, isCallOrRecord,
          htr, isRespOutcome, List.filter_cons, List.filterMap_cons]
        exact ih (i + 1)
      · by_cases herr : status < 200 ∨ 300 ≤ status
        · by_cases hf : fuel = 0
          · subst hf
            simp only [apiGo, htr, if_neg h429, if_pos herr, if_true]
            simp [callRecordEvents, callsOf, expectedCallRecord,
              isCallOrRecord, htr, isRespOutcome]
          · simp only [apiGo, htr, if_neg h429, if_pos herr, if_neg hf]
            simp [callRecordEvents, callsOf, expectedCallRecord,
              isCallOrRecord, htr, isRespOutcome, List.filter_cons,
              List.filterMap_cons]
            exact ih (i + 1)
        · cases hx : extractContent body with
          | some s =>
            simp only [apiGo, htr, if_neg h429, if_neg herr, hx]
            simp [callRecordEvents, callsOf, expectedCallRecord,
              isCallOrRecord, htr, isRespOutcome]
          | none =>
            by_cases hf : fuel = 0
            · subst hf
              simp only [apiGo, htr, if_neg h429, if_neg herr, hx, if_true]
              simp [callRecordEvents, callsOf, expectedCallRecord,
                isCallOrRecord, htr, isRespOutcome]
            · simp only [apiGo, htr, if_neg h429, if_neg herr, hx, if_neg hf]
              simp [callRecordEvents, callsOf, expectedCallRecord,
                isCallOrRecord, htr, isRespOutcome, List.filter_cons,
                List.filterMap_cons]
              exact ih (i + 1)

/-- C8 as stated is false on both counts.  A transport that always times
out makes 3 physical attempts yet records nothing; and in a successful
exchange the trace is `[wait, call, record]`: the record lands after the
request is issued, not between `awaitCapacity` and the request. -/
theorem c8_record_counterexample :
    (callsOf (makeApiRequest (fun _ => .timeoutExc)).2).length = 3
    ∧ recordCount (makeApiRequest (fun _ => .timeoutExc)).2 = 0
    ∧ (makeApiRequest (fun _ => .resp 200 none (okBody "ok"))).2
        = [.wait, .call 0, .record] := by
  exact ⟨rfl, rfl, rfl⟩

/-- C8, amended: for every transport behaviour, the calls/records in the
trace of `_make_api_request` form exactly the pattern `call k` followed by
one `record` when attempt `k` received an HTTP response (any status) and by
no `record` when it raised before a response (timeout or connection
failure); the record thus happens after the request is issued, and attempts
without a response are never recorded. -/
theorem c8_record_per_response (tr : Nat → TransportOutcome) :
    callRecordEvents (makeApiRequest tr).2
      = expectedCallRecord tr (callsOf (makeApiRequest tr).2) :=
  apiGo_callRecord tr 3 0

/-! ## Claim C6: `chat` never raises; memory on failure -/

/-- C6 as stated is false in the rate-limit-exhaustion corner: when all
three attempts are 429s, `_make_api_request` returns `None`, `chat` appends
the user message, and only then does `Message(role="assistant",
content=None)` raise — caught and turned into an error string, but the
memory now holds the extra user message (and was not saved). -/
theorem c6_mutation_counterexample :
    (chat emptyMemory (fun _ => none) "chat_memory.json" "Hello"
        (fun _ => .resp 429 none .null)
        ⟨2024, 1, 1, 9, 0, 0, 0⟩ ⟨2024, 1, 1, 9, 0, 1, 0⟩ .success).memory.messages
      = [⟨"user", "Hello", ⟨2024, 1, 1, 9, 0, 0, 0⟩⟩]
    ∧ ([⟨"user", "Hello", ⟨2024, 1, 1, 9, 0, 0, 0⟩⟩] : List Message)
        ≠ emptyMemory.messages
    ∧ (chat emptyMemory (fun _ => none) "chat_memory.json" "Hello"
        (fun _ => .resp 429 none .null)
        ⟨2024, 1, 1, 9, 0, 0, 0⟩ ⟨2024, 1, 1, 9, 0, 1, 0⟩ .success).reply
      = "Error: assistant message failed validation" := by
  exact ⟨rfl, by decide, rfl⟩

/-- C6, amended: `chat` always returns a string and never raises.  When the
transport layer raises (after retry exhaustion or a fatal error), memory
and filesystem are untouched and a formatted error string is returned; but
when the retry loop ends with no result (three rate-limited attempts),
`chat` still returns an error string while ChatMemory has gained the user
message of the failed exchange, unsaved. -/
theorem c6_chat_failure (mem : ChatMemory) (fs : FS) (p msg : String)
    (tr : Nat → TransportOutcome) (nU nA : DateTime) (w : WriteOutcome)
    (hmsg : ¬(pyStrip msg = "")) :
    (∀ e, (makeApiRequest tr).1 = .raised e →
      (chat mem fs p msg tr nU nA w).reply = "Error: " ++ errText e
      ∧ (chat mem fs p msg tr nU nA w).memory = mem
      ∧ (chat mem fs p msg tr nU nA w).fs = fs)
    ∧ ((makeApiRequest tr).1 = .noneReturn →
      (chat mem fs p msg tr nU nA w).reply
          = "Error: assistant message failed validation"
      ∧ (chat mem fs p msg tr nU nA w).memory.messages
          = mem.messages ++ [⟨"user", msg, nU⟩]
      ∧ (chat mem fs p msg tr nU nA w).fs = fs) := by
  constructor
  · intro e he
    refine ⟨?_, ?_, ?_⟩ <;> simp [chat, hmsg, he]
  · intro he
    refine ⟨?_, ?_, ?_⟩ <;> simp [chat, hmsg, he]

/-- Witness for the amended C6: a transport that always fails to connect
(raises after exhaustion, memory untouched), then one that is always
rate-limited (returns `None`; the user message sticks). -/
theorem c6_chat_failure_witness :
    ((chat emptyMemory (fun _ => none) "chat_memory.json" "Hi"
        (fun _ => .connExc) ⟨2024, 1, 1, 9, 0, 0, 0⟩ ⟨2024, 1, 1, 9, 0, 1, 0⟩
        .success).reply = "Error: " ++ errText .other
      ∧ (chat emptyMemory (fun _ => none) "chat_memory.json" "Hi"
        (fun _ => .connExc) ⟨2024, 1, 1, 9, 0, 0, 0⟩ ⟨2024, 1, 1, 9, 0, 1, 0⟩
        .success).memory = emptyMemory)
    ∧ (chat emptyMemory (fun _ => none) "chat_memory.json" "Hi"
        (fun _ => .resp 429 none .null) ⟨2024, 1, 1, 9, 0, 0, 0⟩
        ⟨2024, 1, 1, 9, 0, 1, 0⟩ .success).memory.messages
      = emptyMemory.messages ++ [⟨"user", "Hi", ⟨2024, 1, 1, 9, 0, 0, 0⟩⟩] := by
  have h1 := (c6_chat_failure emptyMemory (fun _ => none) "chat_memory.json"
    "Hi" (fun _ => .connExc) ⟨2024, 1, 1, 9, 0, 0, 0⟩ ⟨2024, 1, 1, 9, 0, 1, 0⟩
    .success (by decide)).1 .other rfl
  have h2 := (c6_chat_failure emptyMemory (fun _ => none) "chat_memory.json"
    "Hi" (fun _ => .resp 429 none .null) ⟨2024, 1, 1, 9, 0, 0, 0⟩
    ⟨2024, 1, 1, 9, 0, 1, 0⟩ .success (by decide)).2 rfl
  exact ⟨⟨h1.1, h1.2.1⟩, h2.2.1⟩

/-! ## Claim C7: the prompt sent to the transport -/

/-- C7 as stated is false in both variants.  In the Copy variant a stored
system-role message is silently dropped from the prompt (here the prompt
has 2 entries where the claim demands 3, preamble plus the stored message
plus the user message); in the QwenEdited variant no persona preamble is
sent at all (the prompt for an empty history is just the user message). -/
theorem c7_prompt_counterexample :
    promptCopy "P" ⟨[⟨"system", "note", ⟨2024, 1, 1, 9, 0, 0, 0⟩⟩], []⟩ "hi"
      = [("system", "P"), ("user", "hi")]
    ∧ promptQwen ⟨[], []⟩ "hi" = [("user", "hi")] := by
  exact ⟨rfl, rfl⟩

theorem filterMap_nonSystem (l : List Message) :
    (l.filterMap fun m =>
        if m.role = "system" then none else some (m.role, m.content))
      = (l.filter fun m => !(m.role == "system")).map
          fun m => (m.role, m.content) := by
  induction l with
  | nil => rfl
  | cons m rest ih =>
    by_cases h : m.role = "system" <;>
      simp [List.filterMap_cons, List.filter_cons, h, ih]

/-- C7, amended: in the Copy variant the prompt is exactly the persona
preamble, then the stored messages whose role is not `system` in order,
then the new user message; the QwenEdited variant sends no preamble at all
— its prompt is exactly the stored messages followed by the user message. -/
theorem c7_prompt_structure (preamble : String) (mem : ChatMemory)
    (msg : String) :
    promptCopy preamble mem msg
      = ("system", preamble)
        :: ((mem.messages.filter fun m => !(m.role == "system")).map
              fun m => (m.role, m.content)) ++ [("user", msg)]
    ∧ promptQwen mem msg
      = (mem.messages.map fun m => (m.role, m.content)) ++ [("user", msg)] := by
  constructor
  · simp [promptCopy, filterMap_nonSystem]
  · rfl
